import Mathlib

/-!
Verification development for the knative-gcp reconciliation core.

The repository sources under study provide the `PubSubable` duck-type
contract (`pkg/duck/pubsubable.go`), the `Channel.SetDefaults` defaulting
logic (vendored `channel_defaults.go`), and the test suites for the Storage
spec validator, the resource-requirements builder and quantity
multiplication.  The implementations of the validator, the builder,
`MultiplyQuantity` and the condition-aggregation fold live outside the
provided source slice; those are modelled from the specification, as noted
on each definition.
-/

namespace KnativeGCP

/-- A condition's tri-state status (`True` / `False` / `Unknown`). -/
inductive ConditionStatus where
  | condTrue
  | condFalse
  | condUnknown
deriving DecidableEq, Repr

/-- Modelled from the spec: the condition-aggregation fold of the
ConditionSet (the knative.dev/pkg condition manager is not in the source
slice).  Members are named condition types; `assign` gives each member's
current status, `none` meaning the condition is absent from the status.
Per the spec invariant: `Ready` is `False` if any member is `False`;
`True` iff every member is `True`; otherwise `Unknown`. -/
def aggregateReady (members : List String)
    (assign : String → Option ConditionStatus) : ConditionStatus :=
  if members.any fun m => assign m == some ConditionStatus.condFalse then
    ConditionStatus.condFalse
  else if members.all fun m => assign m == some ConditionStatus.condTrue then
    ConditionStatus.condTrue
  else
    ConditionStatus.condUnknown

/-- An ordered, named collection of required condition types plus the
implicit aggregate happy condition (`Ready`). -/
structure ConditionSet where
  happy : String
  dependents : List String
deriving DecidableEq, Repr

/-- A typed object reference (`corev1.ObjectReference` as used by the
validation tests: apiVersion, kind, namespace, name). -/
structure ObjectReference where
  apiVersion : String
  kind : String
  «namespace» : String
  name : String
deriving DecidableEq, Repr

/-- A destination (sink): either a URI or a typed object reference
(`apisv1alpha1.Destination`).  `none` models a nil pointer / unset field. -/
structure Destination where
  objectReference : Option ObjectReference
  uri : Option String
deriving DecidableEq, Repr

/-- A secret key selector (`corev1.SecretKeySelector`): the referenced
secret's name together with the key inside it. -/
structure SecretKeySelector where
  name : String
  key : String
deriving DecidableEq, Repr

/-- The zero value of `SecretKeySelector`; a value-typed selector equal to
it counts as absent. -/
def SecretKeySelector.zero : SecretKeySelector := { name := "", key := "" }

/-- The `duckv1beta1.SourceSpec` portion embedded in `StorageSpec` by the
validation tests; only the sink participates in validation. -/
structure SourceSpec where
  sink : Destination
deriving DecidableEq, Repr

/-- The spec of the Storage source, as constructed by the validation tests:
`Bucket`, the embedded `SourceSpec` (carrying the sink), the value-typed
`GCSSecret` and the pointer-typed `PullSubscriptionSecret`.  Optional
fields that no modelled operation reads (object-name filter, payload
format, event types) are omitted. -/
structure StorageSpec where
  bucket : String
  sourceSpec : SourceSpec
  gcsSecret : SecretKeySelector
  pullSubscriptionSecret : Option SecretKeySelector
deriving DecidableEq, Repr

/-- The Storage resource, carrying its spec (the only part its validation
reads). -/
structure Storage where
  spec : StorageSpec
deriving DecidableEq, Repr

/-- Modelled from the spec: whether a sink resolves to a complete
destination — either a non-empty URI, or an object reference with all of
`apiVersion`, `kind`, `name` non-empty. -/
def destinationValid (d : Destination) : Bool :=
  (match d.uri with
   | some u => !(u == "")
   | none => false) ||
  (match d.objectReference with
   | some r => !(r.apiVersion == "") && !(r.kind == "") && !(r.name == "")
   | none => false)

/-- Modelled from the spec: the missing-field paths of a present secret
selector, each sub-field error qualified by the selector's own path
name — missing either of `name` / `key` yields that distinct path. -/
def secretMissingFields (s : SecretKeySelector) (path : String) : List String :=
  (if s.name = "" then [path ++ ".name"] else []) ++
  (if s.key = "" then [path ++ ".key"] else [])

/-- Modelled from the spec: `StorageSpec.Validate` (its implementation is
not in the source slice; only its tests are).  All rules are evaluated
independently and accumulated: `bucket` must be non-empty; `sink` must be
a complete destination; a present `gcsSecret` (i.e. not the zero value)
and a present `pullSubscriptionSecret` (non-nil pointer) must each carry
non-empty `name` and `key`.  The result is the ordered list of missing
field paths; the empty list means the spec is valid. -/
def StorageSpec.validate (s : StorageSpec) : List String :=
  (if s.bucket = "" then ["bucket"] else []) ++
  (if destinationValid s.sourceSpec.sink then [] else ["sink"]) ++
  (if s.gcsSecret = SecretKeySelector.zero then []
   else secretMissingFields s.gcsSecret "gcsSecret") ++
  (match s.pullSubscriptionSecret with
   | none => []
   | some sec => secretMissingFields sec "pullSubscriptionSecret")

/-- Modelled from the spec: the resource-level `Storage.Validate` (not in
the source slice; the resource-level validation tests are).  Written out
independently of `StorageSpec.validate`, with every path qualified under
`spec`, so that the relation between the two validators is a theorem
rather than a definition. -/
def Storage.validate (r : Storage) : List String :=
  (if r.spec.bucket = "" then ["spec.bucket"] else []) ++
  (if destinationValid r.spec.sourceSpec.sink then [] else ["spec.sink"]) ++
  (if r.spec.gcsSecret = SecretKeySelector.zero then []
   else secretMissingFields r.spec.gcsSecret "spec.gcsSecret") ++
  (match r.spec.pullSubscriptionSecret with
   | none => []
   | some sec => secretMissingFields sec "spec.pullSubscriptionSecret")

/-- A named condition with its tri-state status and observability text. -/
structure Condition where
  condType : String
  status : ConditionStatus
  reason : String
  message : String
deriving DecidableEq, Repr

/-- The shared `PubSubSpec` fields embedded in every PubSub-backed
resource: the required sink, the optional credential selector and the
optional project. -/
structure PubSubSpec where
  sink : Destination
  secret : Option SecretKeySelector
  project : String
deriving DecidableEq, Repr

/-- The shared `PubSubStatus` fields: derived identifiers plus the ordered
condition sequence. -/
structure PubSubStatus where
  projectID : String
  topicID : String
  subscriptionID : String
  sinkURI : String
  conditions : List Condition
deriving DecidableEq, Repr

/-- The group-version-kind identity returned by the owner-reference
descriptor (`kmeta.OwnerRefable.GetGroupVersionKind`). -/
structure GroupVersionKind where
  group : String
  version : String
  kind : String
deriving DecidableEq, Repr

/-- The `PubSubable` duck-type contract of `pkg/duck/pubsubable.go`: an
owner-reference descriptor, mutable views of the embedded `PubSubSpec`
and `PubSubStatus`, and the resource's `ConditionSet`.  The interface's
documentation obliges every implementer's set to have the conditions
`TopicReady` and `PullSubscriptionReady` defined in it (they are set by
the generic pubsub reconciler); that obligation is part of the contract
and is carried by the two membership fields. -/
structure PubSubable where
  groupVersionKind : GroupVersionKind
  pubSubSpec : PubSubSpec
  pubSubStatus : PubSubStatus
  conditionSet : ConditionSet
  topicReadyMem : "TopicReady" ∈ conditionSet.dependents
  pullSubscriptionReadyMem : "PullSubscriptionReady" ∈ conditionSet.dependents

/-- The condition set of the Storage source: aggregate `Ready` over the
two dependent-resource conditions. -/
def storageConditionSet : ConditionSet :=
  { happy := "Ready", dependents := ["TopicReady", "PullSubscriptionReady"] }

/-- A concrete implementer of the `PubSubable` contract (a Storage
source), showing the contract is satisfiable. -/
def storagePubSubable : PubSubable :=
  { groupVersionKind :=
      { group := "events.cloud.google.com", version := "v1alpha1", kind := "Storage" }
    pubSubSpec :=
      { sink := { objectReference := none, uri := some "http://sink.example.com" }
        secret := none
        project := "my-project" }
    pubSubStatus :=
      { projectID := "", topicID := "", subscriptionID := "", sinkURI := "", conditions := [] }
    conditionSet := storageConditionSet
    topicReadyMem := by simp [storageConditionSet]
    pullSubscriptionReadyMem := by simp [storageConditionSet] }

/-- A sample condition assignment in which the Topic is not ready. -/
def topicFailedAssign : String → Option ConditionStatus :=
  fun s => if s = "TopicReady" then some ConditionStatus.condFalse
           else some ConditionStatus.condTrue

/-- The unit suffix of a resource quantity (the suffixes exercised by the
builder and multiplication tests: none, `m`, `Ki`, `Mi`, `Gi`). -/
inductive Suffix where
  | plain
  | milli
  | kibi
  | mebi
  | gibi
deriving DecidableEq, Repr

/-- The multiplier a suffix denotes. -/
def Suffix.multiplier : Suffix → ℚ
  | Suffix.plain => 1
  | Suffix.milli => 1 / 1000
  | Suffix.kibi => 1024
  | Suffix.mebi => 1048576
  | Suffix.gibi => 1073741824

/-- A resource quantity: a number together with its unit suffix/format.
Two quantities printed the same way have the same `num` and `suffix`. -/
structure Quantity where
  num : ℚ
  suffix : Suffix
deriving DecidableEq, Repr

/-- The value a quantity denotes, in base units. -/
def Quantity.value (q : Quantity) : ℚ := q.num * q.suffix.multiplier

/-- Parse a unit suffix. -/
def parseSuffix : String → Option Suffix
  | "" => some Suffix.plain
  | "m" => some Suffix.milli
  | "Ki" => some Suffix.kibi
  | "Mi" => some Suffix.mebi
  | "Gi" => some Suffix.gibi
  | _ => none

/-- Modelled from the spec: parsing a resource-quantity string (the
Kubernetes apimachinery parser is not in the source slice) — a non-empty
run of decimal digits followed by an optional unit suffix; anything else
(in particular the empty string and the tests' `"invalid"`) fails. -/
def parseQuantity (s : String) : Option Quantity :=
  let cs := s.toList
  let digits := cs.takeWhile Char.isDigit
  let rest := cs.dropWhile Char.isDigit
  if digits = [] then none
  else
    match parseSuffix (String.mk rest) with
    | some suf =>
        some { num := (digits.foldl (fun n c => 10 * n + (c.toNat - 48)) 0 : ℕ)
               suffix := suf }
    | none => none

/-- A resource list (mapping from resource name to quantity), restricted
to the two names the builder writes: `cpu` and `memory`.  A `none` field
means the name is absent from the mapping. -/
structure ResourceList where
  cpu : Option Quantity
  memory : Option Quantity
deriving DecidableEq, Repr

/-- `corev1.ResourceRequirements`: `Limits` and `Requests` mappings, where
an outer `none` models a nil (unspecified) mapping as opposed to an empty
one. -/
structure ResourceRequirements where
  limits : Option ResourceList
  requests : Option ResourceList
deriving DecidableEq, Repr

/-- Modelled from the spec: `BuildResourceRequirements` (its
implementation is not in the source slice; only its tests are).  It starts
from non-nil empty `Limits` and `Requests` mappings and, for each of the
four inputs, adds the corresponding entry exactly when the string is
non-empty and parses as a quantity; an empty or unparsable string omits
the entry.  It never returns an error, so its result type carries none. -/
def BuildResourceRequirements (cpuRequest cpuLimit memoryRequest memoryLimit : String) :
    ResourceRequirements :=
  { limits := some { cpu := parseQuantity cpuLimit, memory := parseQuantity memoryLimit }
    requests := some { cpu := parseQuantity cpuRequest, memory := parseQuantity memoryRequest } }

/-- Modelled from the spec: `MultiplyQuantity` (its implementation is not
in the source slice; only its tests are).  It computes `q.value * factor`
and re-expresses the result using the same unit suffix/format as the
input, so a `Mi`-suffixed input yields a `Mi`-suffixed output even at
large magnitude.  It is a pure value transform with no side effects. -/
def MultiplyQuantity (q : Quantity) (factor : ℚ) : Quantity :=
  { num := q.value * factor / q.suffix.multiplier
    suffix := q.suffix }

/-- A channel template (`ChannelTemplateSpec`): type meta naming the
channel CRD, plus its raw spec payload. -/
structure ChannelTemplateSpec where
  apiVersion : String
  kind : String
  spec : Option String
deriving DecidableEq, Repr

/-- The subscribable portion of a channel spec (its subscriber UIDs; the
defaulting code never touches it, it is here so frame properties are
meaningful). -/
structure Subscribable where
  subscribers : List String
deriving DecidableEq, Repr

/-- `ChannelSpec` from the vendored messaging `v1alpha1` API: the optional
channel template (nil until defaulted) and the optional subscribable. -/
structure ChannelSpec where
  channelTemplate : Option ChannelTemplateSpec
  subscribable : Option Subscribable
deriving DecidableEq, Repr

/-- A messaging `v1alpha1.Channel`: object meta (namespace, name) and the
spec. -/
structure Channel where
  «namespace» : String
  name : String
  spec : ChannelSpec
deriving DecidableEq, Repr

/-- The `ChannelDefaulter` interface: `GetDefault(namespace)` returns the
default channel template for a namespace (possibly nil). -/
structure ChannelDefaulter where
  getDefault : String → Option ChannelTemplateSpec

/-- Embedding of `Channel.SetDefaults` from `channel_defaults.go`.  The
receiver is a possibly-nil pointer (`Option Channel`); the process-global
`ChannelDefaulterSingleton` is passed explicitly.  When the receiver is
non-nil and its template is nil and the singleton is non-nil, the
template is assigned `GetDefault` of the channel's namespace; then the
method unconditionally runs `c.Spec.SetDefaults(ctx)`.  `ChannelSpec`'s
`SetDefaults` has an empty body, but selecting `c.Spec` dereferences the
receiver, so a nil receiver panics there — modelled as `Except.error`. -/
def Channel.setDefaults (singleton : Option ChannelDefaulter) :
    Option Channel → Except String (Option Channel)
  | none => Except.error "nil pointer dereference"
  | some c =>
    let c :=
      if c.spec.channelTemplate = none then
        match singleton with
        | some cd =>
            { c with spec := { c.spec with channelTemplate := cd.getDefault c.«namespace» } }
        | none => c
      else c
    Except.ok (some c)

/-- The completely empty (all fields zero-valued) `StorageSpec`. -/
def emptyStorageSpec : StorageSpec :=
  { bucket := ""
    sourceSpec := { sink := { objectReference := none, uri := none } }
    gcsSecret := SecretKeySelector.zero
    pullSubscriptionSecret := none }

/-- The validation tests' otherwise-valid spec whose GCS secret is missing
only its key. -/
def gcsSecretMissingKeySpec : StorageSpec :=
  { bucket := "my-test-bucket"
    sourceSpec :=
      { sink :=
          { objectReference :=
              some { apiVersion := "foo", kind := "bar", «namespace» := "baz", name := "qux" }
            uri := none } }
    gcsSecret := { name := "gcs-test-secret", key := "" }
    pullSubscriptionSecret := none }

/-- A sample channel template. -/
def sampleTemplate : ChannelTemplateSpec :=
  { apiVersion := "messaging.cloud.google.com/v1alpha1", kind := "Channel", spec := none }

/-- A sample channel whose template is already set. -/
def sampleChannel : Channel :=
  { «namespace» := "default", name := "my-channel"
    spec := { channelTemplate := some sampleTemplate, subscribable := none } }

/-- The aggregate is `False` exactly when some member condition is
`False`. -/
theorem aggregateReady_false_iff (members : List String)
    (assign : String → Option ConditionStatus) :
    aggregateReady members assign = ConditionStatus.condFalse ↔
      ∃ m ∈ members, assign m = some ConditionStatus.condFalse := by
  unfold aggregateReady
  by_cases hb : (members.any fun m => assign m == some ConditionStatus.condFalse) = true
  · simp only [hb, if_true]
    simp only [List.any_eq_true, beq_iff_eq] at hb
    simpa using hb
  · simp only [Bool.not_eq_true] at hb
    simp only [hb]
    simp only [Bool.false_eq_true, if_false]
    constructor
    · intro h
      split at h <;> simp_all
    · intro ⟨m, hm, hf⟩
      exfalso
      have : (members.any fun m => assign m == some ConditionStatus.condFalse) = true := by
        simp only [List.any_eq_true, beq_iff_eq]
        exact ⟨m, hm, hf⟩
      simp [this] at hb

/-- The aggregate is `True` exactly when every member condition is
`True`. -/
theorem aggregateReady_true_iff (members : List String)
    (assign : String → Option ConditionStatus) :
    aggregateReady members assign = ConditionStatus.condTrue ↔
      ∀ m ∈ members, assign m = some ConditionStatus.condTrue := by
  unfold aggregateReady
  by_cases hb : (members.any fun m => assign m == some ConditionStatus.condFalse) = true
  · simp only [hb, if_true]
    simp only [List.any_eq_true, beq_iff_eq] at hb
    obtain ⟨m, hm, hf⟩ := hb
    constructor
    · intro h; exact absurd h (by simp)
    · intro hall
      have := hall m hm
      rw [this] at hf
      simp at hf
  · simp only [Bool.not_eq_true] at hb
    simp only [hb, Bool.false_eq_true, if_false]
    by_cases ha : (members.all fun m => assign m == some ConditionStatus.condTrue) = true
    · simp only [ha, if_true]
      simp only [List.all_eq_true, beq_iff_eq] at ha
      simpa using ha
    · simp only [Bool.not_eq_true] at ha
      simp only [ha, Bool.false_eq_true, if_false]
      constructor
      · intro h; exact absurd h (by simp)
      · intro hall
        exfalso
        have : (members.all fun m => assign m == some ConditionStatus.condTrue) = true := by
          simp only [List.all_eq_true, beq_iff_eq]; exact hall
        rw [this] at ha; simp at ha

/-- The aggregate is `Unknown` exactly when no member is `False` and some
member is not `True` (it is `Unknown` or absent). -/
theorem aggregateReady_unknown_iff (members : List String)
    (assign : String → Option ConditionStatus) :
    aggregateReady members assign = ConditionStatus.condUnknown ↔
      ((∀ m ∈ members, assign m ≠ some ConditionStatus.condFalse) ∧
        ∃ m ∈ members, assign m ≠ some ConditionStatus.condTrue) := by
  constructor
  · intro h
    have hnf : ¬ ∃ m ∈ members, assign m = some ConditionStatus.condFalse := by
      intro hex
      rw [(aggregateReady_false_iff members assign).mpr hex] at h
      simp at h
    have hnt : ¬ ∀ m ∈ members, assign m = some ConditionStatus.condTrue := by
      intro hall
      rw [(aggregateReady_true_iff members assign).mpr hall] at h
      simp at h
    push_neg at hnf hnt
    exact ⟨hnf, hnt⟩
  · intro ⟨hnf, hnt⟩
    have h1 : aggregateReady members assign ≠ ConditionStatus.condFalse := by
      intro heq
      obtain ⟨m, hm, hf⟩ := (aggregateReady_false_iff members assign).mp heq
      exact hnf m hm hf
    have h2 : aggregateReady members assign ≠ ConditionStatus.condTrue := by
      intro heq
      have hall := (aggregateReady_true_iff members assign).mp heq
      obtain ⟨m, hm, hmt⟩ := hnt
      exact hmt (hall m hm)
    cases hagg : aggregateReady members assign <;> simp_all

/-- Mapping the `spec.` qualifier over a secret selector's missing-field
paths agrees with qualifying the selector's own path. -/
theorem secretMissingFields_map (sec : SecretKeySelector) (path : String) :
    secretMissingFields sec ("spec." ++ path) =
      List.map (fun p => "spec." ++ p) (secretMissingFields sec path) := by
  unfold secretMissingFields
  simp only [List.map_append]
  congr 1 <;> split <;> simp [String.append_assoc]

/-- Claim C1: the ConditionSet aggregation is a deterministic function of
the member conditions — the aggregate `Ready` is `True` iff every member
is `True`; it is `False` iff some member is `False` (so `False` wins
regardless of the others); and it is `Unknown` iff no member is `False`
but at least one member is `Unknown` or absent. -/
theorem conditionSet_ready_aggregation (members : List String)
    (assign : String → Option ConditionStatus) :
    (aggregateReady members assign = ConditionStatus.condTrue ↔
      ∀ m ∈ members, assign m = some ConditionStatus.condTrue) ∧
    (aggregateReady members assign = ConditionStatus.condFalse ↔
      ∃ m ∈ members, assign m = some ConditionStatus.condFalse) ∧
    (aggregateReady members assign = ConditionStatus.condUnknown ↔
      ((∀ m ∈ members, assign m ≠ some ConditionStatus.condFalse) ∧
        ∃ m ∈ members, assign m ≠ some ConditionStatus.condTrue)) :=
  ⟨aggregateReady_true_iff members assign,
   aggregateReady_false_iff members assign,
   aggregateReady_unknown_iff members assign⟩

/-- Claim C2: validating the completely empty `StorageSpec` yields exactly
the missing-field paths `bucket` and `sink`, and no other paths. -/
theorem storageSpec_validate_empty :
    StorageSpec.validate emptyStorageSpec = ["bucket", "sink"] ∧
    (∀ p : String, p ∈ StorageSpec.validate emptyStorageSpec ↔
      (p = "bucket" ∨ p = "sink")) := by
  have h : StorageSpec.validate emptyStorageSpec = ["bucket", "sink"] := by decide
  refine ⟨h, ?_⟩
  intro p
  rw [h]
  simp

/-- Claim C3: on an otherwise-valid `StorageSpec` whose present secret
selector has exactly one of `name`/`key` empty, validation returns
precisely the one path of the empty sub-field, qualified by that
selector's own prefix. -/
theorem storageSpec_validate_partial_secret (s : StorageSpec)
    (hbucket : s.bucket ≠ "") (hsink : destinationValid s.sourceSpec.sink = true) :
    ((s.pullSubscriptionSecret = none ∨
      (∃ psec, s.pullSubscriptionSecret = some psec ∧ psec.name ≠ "" ∧ psec.key ≠ "")) →
      ((s.gcsSecret.name ≠ "" → s.gcsSecret.key = "" →
        StorageSpec.validate s = ["gcsSecret.key"]) ∧
       (s.gcsSecret.name = "" → s.gcsSecret.key ≠ "" →
        StorageSpec.validate s = ["gcsSecret.name"]))) ∧
    ((s.gcsSecret = SecretKeySelector.zero ∨ (s.gcsSecret.name ≠ "" ∧ s.gcsSecret.key ≠ "")) →
      ∀ sec, s.pullSubscriptionSecret = some sec →
        ((sec.name ≠ "" → sec.key = "" →
          StorageSpec.validate s = ["pullSubscriptionSecret.key"]) ∧
         (sec.name = "" → sec.key ≠ "" →
          StorageSpec.validate s = ["pullSubscriptionSecret.name"]))) := by
  constructor
  · intro hpss
    rcases hpss with hpnone | ⟨psec, hp, hpn, hpk⟩
    · constructor
      · intro hn hk
        have hz : s.gcsSecret ≠ SecretKeySelector.zero := by
          intro h; apply hn; rw [h]; rfl
        simp [StorageSpec.validate, hbucket, hsink, hz, hpnone, secretMissingFields, hn, hk]
      · intro hn hk
        have hz : s.gcsSecret ≠ SecretKeySelector.zero := by
          intro h; apply hk; rw [h]; rfl
        simp [StorageSpec.validate, hbucket, hsink, hz, hpnone, secretMissingFields, hn, hk]
    · constructor
      · intro hn hk
        have hz : s.gcsSecret ≠ SecretKeySelector.zero := by
          intro h; apply hn; rw [h]; rfl
        simp [StorageSpec.validate, hbucket, hsink, hz, hp, secretMissingFields,
          hn, hk, hpn, hpk]
      · intro hn hk
        have hz : s.gcsSecret ≠ SecretKeySelector.zero := by
          intro h; apply hk; rw [h]; rfl
        simp [StorageSpec.validate, hbucket, hsink, hz, hp, secretMissingFields,
          hn, hk, hpn, hpk]
  · intro hgcs sec hpss
    rcases hgcs with h | ⟨hgn, hgk⟩
    · constructor
      · intro hn hk
        simp [StorageSpec.validate, hbucket, hsink, hpss, h, secretMissingFields, hn, hk]
      · intro hn hk
        simp [StorageSpec.validate, hbucket, hsink, hpss, h, secretMissingFields, hn, hk]
    · have hz : s.gcsSecret ≠ SecretKeySelector.zero := by
        intro he; apply hgn; rw [he]; rfl
      constructor
      · intro hn hk
        simp [StorageSpec.validate, hbucket, hsink, hpss, hz, secretMissingFields,
          hn, hk, hgn, hgk]
      · intro hn hk
        simp [StorageSpec.validate, hbucket, hsink, hpss, hz, secretMissingFields,
          hn, hk, hgn, hgk]

/-- Claim C3, witness: the validation tests' spec whose GCS secret is
missing only its key yields exactly `gcsSecret.key`. -/
theorem storageSpec_validate_partial_secret_witness :
    gcsSecretMissingKeySpec.bucket ≠ "" ∧
    destinationValid gcsSecretMissingKeySpec.sourceSpec.sink = true ∧
    StorageSpec.validate gcsSecretMissingKeySpec = ["gcsSecret.key"] := by
  refine ⟨by decide, by decide, ?_⟩
  exact ((storageSpec_validate_partial_secret gcsSecretMissingKeySpec
    (by decide) (by decide)).1 (Or.inl rfl)).1 (by decide) rfl

/-- Claim C4: `BuildResourceRequirements` is total (no error return); each
of the four slots contributes its entry to the corresponding mapping iff
its string is non-empty and parses as a quantity, with the parsed value;
and the inputs `("1500m","","500Mi","3000Mi")` yield
`Limits={memory:3000Mi}` and `Requests={cpu:1500m, memory:500Mi}`. -/
theorem buildResourceRequirements_entries
    (cpuRequest cpuLimit memoryRequest memoryLimit : String) :
    (∃ L R,
      (BuildResourceRequirements cpuRequest cpuLimit memoryRequest memoryLimit).limits =
        some L ∧
      (BuildResourceRequirements cpuRequest cpuLimit memoryRequest memoryLimit).requests =
        some R ∧
      (∀ q, L.cpu = some q ↔ (cpuLimit ≠ "" ∧ parseQuantity cpuLimit = some q)) ∧
      (∀ q, L.memory = some q ↔ (memoryLimit ≠ "" ∧ parseQuantity memoryLimit = some q)) ∧
      (∀ q, R.cpu = some q ↔ (cpuRequest ≠ "" ∧ parseQuantity cpuRequest = some q)) ∧
      (∀ q, R.memory = some q ↔ (memoryRequest ≠ "" ∧ parseQuantity memoryRequest = some q))) ∧
    BuildResourceRequirements "1500m" "" "500Mi" "3000Mi" =
      { limits := some { cpu := none, memory := some { num := 3000, suffix := Suffix.mebi } }
        requests := some { cpu := some { num := 1500, suffix := Suffix.milli }
                           memory := some { num := 500, suffix := Suffix.mebi } } } := by
  have key : ∀ (s : String) (q : Quantity),
      parseQuantity s = some q ↔ (s ≠ "" ∧ parseQuantity s = some q) := by
    intro s q
    constructor
    · intro h
      refine ⟨?_, h⟩
      intro he
      subst he
      simp [parseQuantity] at h
    · intro ⟨_, h⟩; exact h
  refine ⟨⟨_, _, rfl, rfl, ?_, ?_, ?_, ?_⟩, by decide⟩ <;>
    intro q <;> exact key _ q

/-- Claim C5: `MultiplyQuantity` multiplies the quantity's value by the
factor and re-expresses the result in the same unit suffix, with no side
effects (it is a pure function of its input); concretely
`1000Mi * 2 = 2000Mi` and `2Mi * 1e9 = 2000000000Mi`. -/
theorem multiplyQuantity_spec :
    (∀ (q : Quantity) (factor : ℚ),
      (MultiplyQuantity q factor).value = q.value * factor ∧
      (MultiplyQuantity q factor).suffix = q.suffix) ∧
    parseQuantity "1000Mi" = some { num := 1000, suffix := Suffix.mebi } ∧
    MultiplyQuantity { num := 1000, suffix := Suffix.mebi } 2 =
      { num := 2000, suffix := Suffix.mebi } ∧
    parseQuantity "2Mi" = some { num := 2, suffix := Suffix.mebi } ∧
    MultiplyQuantity { num := 2, suffix := Suffix.mebi } 1000000000 =
      { num := 2000000000, suffix := Suffix.mebi } := by
  refine ⟨?_, by decide, ?_, by decide, ?_⟩
  · intro q f
    have hm : q.suffix.multiplier ≠ 0 := by
      cases q.suffix <;> norm_num [Suffix.multiplier]
    exact ⟨by simp [MultiplyQuantity, Quantity.value, div_mul_cancel₀ _ hm], rfl⟩
  · simp [MultiplyQuantity, Quantity.value, Suffix.multiplier]
    norm_num
  · simp [MultiplyQuantity, Quantity.value, Suffix.multiplier]
    norm_num

/-- Claim C6: for every input, the result carries non-null `Limits` and
`Requests` mappings; the all-empty/all-invalid input yields both mappings
present and empty (`some` of the empty list, distinct from the `none` of
an unspecified mapping). -/
theorem buildResourceRequirements_nonnull
    (cpuRequest cpuLimit memoryRequest memoryLimit : String) :
    (BuildResourceRequirements cpuRequest cpuLimit memoryRequest memoryLimit).limits ≠
      none ∧
    (BuildResourceRequirements cpuRequest cpuLimit memoryRequest memoryLimit).requests ≠
      none ∧
    BuildResourceRequirements "" "" "invalid" "" =
      { limits := some { cpu := none, memory := none }
        requests := some { cpu := none, memory := none } } := by
  refine ⟨by simp [BuildResourceRequirements], by simp [BuildResourceRequirements], by decide⟩

/-- Claim C7: every implementer of the `PubSubable` contract has
`TopicReady` and `PullSubscriptionReady` among its condition set's
members, so setting either to `False` forces the aggregate `Ready` to
`False` and `Ready = True` requires both to be `True`. -/
theorem pubSubable_conditionSet_members (p : PubSubable)
    (assign : String → Option ConditionStatus) :
    "TopicReady" ∈ p.conditionSet.dependents ∧
    "PullSubscriptionReady" ∈ p.conditionSet.dependents ∧
    (assign "TopicReady" = some ConditionStatus.condFalse →
      aggregateReady p.conditionSet.dependents assign = ConditionStatus.condFalse) ∧
    (assign "PullSubscriptionReady" = some ConditionStatus.condFalse →
      aggregateReady p.conditionSet.dependents assign = ConditionStatus.condFalse) ∧
    (aggregateReady p.conditionSet.dependents assign = ConditionStatus.condTrue →
      (assign "TopicReady" = some ConditionStatus.condTrue ∧
       assign "PullSubscriptionReady" = some ConditionStatus.condTrue)) := by
  refine ⟨p.topicReadyMem, p.pullSubscriptionReadyMem, ?_, ?_, ?_⟩
  · intro h
    exact (aggregateReady_false_iff _ _).mpr ⟨_, p.topicReadyMem, h⟩
  · intro h
    exact (aggregateReady_false_iff _ _).mpr ⟨_, p.pullSubscriptionReadyMem, h⟩
  · intro h
    have hall := (aggregateReady_true_iff _ _).mp h
    exact ⟨hall _ p.topicReadyMem, hall _ p.pullSubscriptionReadyMem⟩

/-- Claim C7, witness: a concrete Storage implementer, evaluated at an
assignment where `TopicReady` is `False`. -/
theorem pubSubable_conditionSet_members_witness :
    "TopicReady" ∈ storagePubSubable.conditionSet.dependents ∧
    aggregateReady storagePubSubable.conditionSet.dependents topicFailedAssign =
      ConditionStatus.condFalse :=
  ⟨(pubSubable_conditionSet_members storagePubSubable topicFailedAssign).1,
   (pubSubable_conditionSet_members storagePubSubable topicFailedAssign).2.2.1 (by decide)⟩

/-- Claim C8: resource-level validation of a Storage equals spec-level
validation of its spec with every path prefixed by `spec.`; on the empty
resource that is exactly `spec.bucket`, `spec.sink`. -/
theorem storage_validate_via_spec (r : Storage) :
    Storage.validate r = (StorageSpec.validate r.spec).map (fun p => "spec." ++ p) ∧
    Storage.validate { spec := emptyStorageSpec } = ["spec.bucket", "spec.sink"] := by
  constructor
  · unfold Storage.validate StorageSpec.validate
    simp only [List.map_append]
    congr 1
    · congr 1
      · congr 1
        · split <;> rfl
        · split <;> rfl
      · split
        · rfl
        · rw [show ("spec.gcsSecret" : String) = "spec." ++ "gcsSecret" from rfl]
          exact secretMissingFields_map r.spec.gcsSecret "gcsSecret"
    · cases r.spec.pullSubscriptionSecret with
      | none => rfl
      | some sec =>
          rw [show ("spec.pullSubscriptionSecret" : String) =
            "spec." ++ "pullSubscriptionSecret" from rfl]
          exact secretMissingFields_map sec "pullSubscriptionSecret"
  · decide

/-- Claim C9: for a non-nil channel, `SetDefaults` is the identity when
the template is already set, or when it is unset and the singleton is
nil; only when the template is unset and the singleton is non-nil is the
template assigned `GetDefault` of the channel's namespace, every other
field (namespace, name, subscribable) being preserved; and the method is
idempotent on non-nil channels. -/
theorem channel_setDefaults_frame (s : Option ChannelDefaulter) (c : Channel) :
    (c.spec.channelTemplate ≠ none →
      Channel.setDefaults s (some c) = Except.ok (some c)) ∧
    (c.spec.channelTemplate = none → s = none →
      Channel.setDefaults s (some c) = Except.ok (some c)) ∧
    (∀ cd, s = some cd → c.spec.channelTemplate = none →
      Channel.setDefaults s (some c) =
        Except.ok (some { c with
          spec := { c.spec with channelTemplate := cd.getDefault c.«namespace» } })) ∧
    (∀ d, Channel.setDefaults s (some c) = Except.ok (some d) →
      (d.«namespace» = c.«namespace» ∧ d.name = c.name ∧
       d.spec.subscribable = c.spec.subscribable)) ∧
    (∀ r, Channel.setDefaults s (some c) = Except.ok r →
      Channel.setDefaults s r = Except.ok r) := by
  obtain ⟨ns, nm, ct, sub⟩ := c
  refine ⟨?_, ?_, ?_, ?_, ?_⟩
  · intro h
    simp [Channel.setDefaults, h]
  · intro h hs
    subst hs
    simp at h
    subst h
    simp [Channel.setDefaults]
  · intro cd hs hct
    subst hs
    simp at hct
    subst hct
    simp [Channel.setDefaults]
  · intro d h
    rcases s with _ | cd <;> rcases ct with _ | t <;>
      simp [Channel.setDefaults] at h <;> subst h <;> simp
  · intro r h
    rcases s with _ | cd <;> rcases ct with _ | t <;>
      simp [Channel.setDefaults] at h <;> subst h <;>
      simp [Channel.setDefaults]

/-- Claim C9, witness: a channel with its template already set passes
through `SetDefaults` unchanged. -/
theorem channel_setDefaults_frame_witness :
    Channel.setDefaults none (some sampleChannel) = Except.ok (some sampleChannel) :=
  (channel_setDefaults_frame none sampleChannel).1 (by simp [sampleChannel])

/-- Claim C10, counterexample: calling `SetDefaults` on a nil `*Channel`
receiver is not a safe no-op — with a nil singleton it does not return
the untouched nil receiver but panics (nil dereference at the final
`c.Spec.SetDefaults(ctx)` call, which sits outside the nil guard). -/
theorem channel_setDefaults_nil_counterexample :
    Channel.setDefaults none none ≠ Except.ok none ∧
    Channel.setDefaults none none = Except.error "nil pointer dereference" := by
  constructor
  · intro h
    exact Except.noConfusion h
  · rfl

/-- Claim C10, amended: `SetDefaults` on a nil receiver always panics with
a nil pointer dereference, for every singleton value; on any non-nil
receiver it completes without panicking. -/
theorem channel_setDefaults_nil_panics (s : Option ChannelDefaulter) (c : Channel) :
    Channel.setDefaults s none = Except.error "nil pointer dereference" ∧
    ∃ d, Channel.setDefaults s (some c) = Except.ok (some d) := by
  refine ⟨rfl, ?_⟩
  exact ⟨_, rfl⟩

end KnativeGCP
